import Mathlib

/-!
Shallow embedding of the periodic analysis and real-time distribution engine
of the api-observatory repository, together with proofs about its behaviour.

The analysis jobs live in services/analytics/main.go (detectDuplicates,
analyzeCacheOpportunities, detectAnomalies), the cost rollup in
services/cost-tracker/main.go (calculateRealTimeCosts), and the websocket
gateway in the second compilation unit of services/analytics/main.go
(handleWebSocket, getInitialData, getRedisData).

Conventions of the embedding:
  * SQL numerics and Go float64 values are modelled as exact rationals (ℚ).
  * Timestamps are integers (seconds); `now` is passed explicitly, and the SQL
    filter `time > NOW() - INTERVAL 'x'` becomes `now - x < r.time`.
  * `MD5(s)` is modelled as the string `s` itself: the analyses use the digest
    only as a stable identifier for its preimage, so the model keeps the
    concatenated preimage as the fingerprint.
  * A database query either fails (`none`, the `err != nil` branch of
    `QueryContext`) or returns the full record set, over which the query text
    itself is evaluated as a pure list pipeline.
  * Redis writes and publishes are reified as a list of `CacheOp` effects, in
    program order; a cache is a map from key to the latest stored value.
-/

/-- One row of the api_requests table (the UsageRecord of the data model):
only the columns the four analyses read are kept.  `metadata` stands for the
text rendering `COALESCE(metadata::text, '')` that the queries hash. -/
structure UsageRecord where
  time : Int
  organizationId : Int
  provider : String
  endpoint : String
  method : String
  statusCode : Int
  latencyMs : ℚ
  cost : ℚ
  metadata : String
deriving DecidableEq

/-- Records satisfying `time > NOW() - INTERVAL 'seconds'`. -/
def windowRecords (seconds : Int) (now : Int) (records : List UsageRecord) :
    List UsageRecord :=
  records.filter (fun r => decide (now - seconds < r.time))

/-- SQL `GROUP BY key`: one group per distinct key, each holding every row
with that key.  (SQL fixes no group order; the jobs sort afterwards.) -/
def groupBy {α κ : Type} [DecidableEq κ] (key : α → κ) (l : List α) :
    List (κ × List α) :=
  ((l.map key).dedup).map (fun k => (k, l.filter (fun a => decide (key a = k))))

/-- Insertion into a list sorted by the boolean comparison `le`. -/
def insertBy {α : Type} (le : α → α → Bool) (a : α) : List α → List α
  | [] => [a]
  | b :: bs => if le a b then a :: b :: bs else b :: insertBy le a bs

/-- SQL `ORDER BY` modelled as insertion sort under the boolean comparison
`le` (kernel-computable, unlike well-founded merge sort). -/
def sortBy {α : Type} (le : α → α → Bool) : List α → List α
  | [] => []
  | a :: as => insertBy le a (sortBy le as)

theorem mem_insertBy {α : Type} (le : α → α → Bool) (a x : α) :
    ∀ l : List α, x ∈ insertBy le a l ↔ x = a ∨ x ∈ l := by
  intro l
  induction l with
  | nil => simp [insertBy]
  | cons b bs ih =>
    by_cases h : le a b = true
    · simp [insertBy, h]
    · simp [insertBy, h, ih]
      tauto

theorem length_insertBy {α : Type} (le : α → α → Bool) (a : α) :
    ∀ l : List α, (insertBy le a l).length = l.length + 1 := by
  intro l
  induction l with
  | nil => simp [insertBy]
  | cons b bs ih =>
    by_cases h : le a b = true <;> simp [insertBy, h, ih]

theorem length_sortBy {α : Type} (le : α → α → Bool) :
    ∀ l : List α, (sortBy le l).length = l.length := by
  intro l
  induction l with
  | nil => rfl
  | cons a as ih => simp [sortBy, length_insertBy, ih]

theorem mem_sortBy {α : Type} (le : α → α → Bool) (x : α) :
    ∀ l : List α, x ∈ sortBy le l ↔ x ∈ l := by
  intro l
  induction l with
  | nil => simp [sortBy]
  | cons a as ih => simp [sortBy, mem_insertBy, ih]

theorem pairwise_insertBy {α : Type} (le : α → α → Bool)
    (total : ∀ a b, le a b = true ∨ le b a = true)
    (trans : ∀ a b c, le a b = true → le b c = true → le a c = true) (a : α) :
    ∀ l : List α, List.Pairwise (fun x y => le x y = true) l →
      List.Pairwise (fun x y => le x y = true) (insertBy le a l) := by
  intro l
  induction l with
  | nil => intro _; simp [insertBy]
  | cons b bs ih =>
    intro h
    rcases h with _ | ⟨hb, hbs⟩
    by_cases hab : le a b = true
    · simp only [insertBy, hab, if_pos]
      refine List.Pairwise.cons ?_ (List.Pairwise.cons hb hbs)
      intro y hy
      rcases List.mem_cons.mp hy with hyb | hy
      · rw [hyb]; exact hab
      · exact trans a b y hab (hb y hy)
    · simp only [insertBy, hab, if_neg, Bool.not_eq_true]
      refine List.Pairwise.cons ?_ (ih hbs)
      intro y hy
      rcases (mem_insertBy le a y bs).mp hy with hya | hy
      · rw [hya]; exact (total a b).resolve_left hab
      · exact hb y hy

theorem pairwise_sortBy {α : Type} (le : α → α → Bool)
    (total : ∀ a b, le a b = true ∨ le b a = true)
    (trans : ∀ a b c, le a b = true → le b c = true → le a c = true) :
    ∀ l : List α, List.Pairwise (fun x y => le x y = true) (sortBy le l) := by
  intro l
  induction l with
  | nil => simp [sortBy]
  | cons a as ih => exact pairwise_insertBy le total trans a _ ih

/-- Every group produced by `groupBy` is exactly the filter of the input by
its own key. -/
theorem groupBy_mem_eq {α κ : Type} [DecidableEq κ] (key : α → κ) (l : List α)
    (g : κ × List α) (hg : g ∈ groupBy key l) :
    g.2 = l.filter (fun a => decide (key a = g.1)) := by
  rcases List.mem_map.mp hg with ⟨k, _, rfl⟩
  rfl

/-- A group's key occurs among the keys of the input list. -/
theorem groupBy_key_mem {α κ : Type} [DecidableEq κ] (key : α → κ) (l : List α)
    (g : κ × List α) (hg : g ∈ groupBy key l) : g.1 ∈ l.map key := by
  rcases List.mem_map.mp hg with ⟨k, hk, rfl⟩
  exact List.mem_dedup.mp hk

/-- Every group is nonempty: its key comes from an actual row. -/
theorem groupBy_ne_nil {α κ : Type} [DecidableEq κ] (key : α → κ) (l : List α)
    (g : κ × List α) (hg : g ∈ groupBy key l) : g.2 ≠ [] := by
  have hkey := groupBy_key_mem key l g hg
  have h2 := groupBy_mem_eq key l g hg
  rcases List.mem_map.mp hkey with ⟨a, ha, hak⟩
  intro hnil
  have : a ∈ g.2 := by
    rw [h2, List.mem_filter]
    exact ⟨ha, by simp [hak]⟩
  rw [hnil] at this
  exact (List.not_mem_nil a) this

/-! ## Duplicate detection (services/analytics/main.go, detectDuplicates) -/

/-- `MD5(endpoint || method || COALESCE(metadata::text, ''))`, the
content-fingerprint of the duplicate query, modelled by its preimage. -/
def requestHash (r : UsageRecord) : String :=
  r.endpoint ++ r.method ++ r.metadata

/-- One duplicate cluster as scanned into the Go DuplicateGroup struct
(organization id and hash are selected by the query but dropped by the
struct). -/
structure DuplicateGroup where
  endpoint : String
  count : Nat
  cost : ℚ
  firstSeen : Int
  lastSeen : Int
deriving DecidableEq

/-- SQL `MIN` over a group's timestamps (groups are nonempty). -/
def intMin : List Int → Int
  | [] => 0
  | a :: as => as.foldl min a

/-- SQL `MAX` over a group's timestamps (groups are nonempty). -/
def intMax : List Int → Int
  | [] => 0
  | a :: as => as.foldl max a

/-- The group aggregates of the duplicates query. -/
def mkDuplicateGroup (g : (Int × String × String) × List UsageRecord) :
    DuplicateGroup :=
  { endpoint := g.1.2.2
    count := g.2.length
    cost := (g.2.map (fun r => r.cost)).sum
    firstSeen := intMin (g.2.map (fun r => r.time))
    lastSeen := intMax (g.2.map (fun r => r.time)) }

/-- The duplicates query: records of the last hour, grouped by
(organization_id, request_hash, endpoint), `HAVING COUNT(*) > 1`,
`ORDER BY total_cost DESC`, `LIMIT 100`. -/
def detectDuplicates (now : Int) (records : List UsageRecord) :
    List DuplicateGroup :=
  let grouped := groupBy
    (fun r => (r.organizationId, requestHash r, r.endpoint))
    (windowRecords 3600 now records)
  (sortBy (fun a b => decide (b.cost ≤ a.cost))
    ((grouped.filter (fun g => decide (1 < g.2.length))).map mkDuplicateGroup)).take 100

/-! ## Cache-opportunity detection (analyzeCacheOpportunities) -/

/-- `MD5(endpoint || COALESCE(metadata::text, ''))`, the fingerprint of the
cache-opportunity query (method is constant "GET" in its rows), modelled by
its preimage. -/
def cacheHash (r : UsageRecord) : String :=
  r.endpoint ++ r.metadata

/-- One row of the endpoint_stats CTE, after `HAVING COUNT(*) > 10`. -/
structure EndpointStats where
  endpoint : String
  totalRequests : Nat
  uniqueRequests : Nat
  totalCost : ℚ
  avgLatency : ℚ
deriving DecidableEq

/-- The rows scanned by the cache-opportunity query: GET requests of the last
24 hours with status below 400. -/
def cacheFiltered (now : Int) (records : List UsageRecord) :
    List UsageRecord :=
  records.filter (fun r =>
    decide (r.method = "GET" ∧ now - 86400 < r.time ∧ r.statusCode < 400))

/-- endpoint_stats: group the filtered rows by endpoint, keep groups with
more than 10 rows, and compute COUNT, COUNT(DISTINCT hash), SUM(cost),
AVG(latency_ms). -/
def endpointStats (now : Int) (records : List UsageRecord) :
    List EndpointStats :=
  ((groupBy (fun r => r.endpoint) (cacheFiltered now records)).filter
      (fun g => decide (10 < g.2.length))).map
    (fun g =>
      { endpoint := g.1
        totalRequests := g.2.length
        uniqueRequests := ((g.2.map cacheHash).dedup).length
        totalCost := (g.2.map (fun r => r.cost)).sum
        avgLatency := (g.2.map (fun r => r.latencyMs)).sum / g.2.length })

/-- PostgreSQL `ROUND(x, 2)` on numerics: half away from zero at the second
decimal. -/
def round2 (x : ℚ) : ℚ :=
  if 0 ≤ x then ((⌊x * 100 + 1 / 2⌋ : ℤ) : ℚ) / 100
  else -(((⌊-x * 100 + 1 / 2⌋ : ℤ) : ℚ) / 100)

/-- `ROUND(100.0 * (total_requests - unique_requests) / total_requests, 2)`. -/
def hitRatio (total unique : Nat) : ℚ :=
  round2 (100 * ((total : ℚ) - (unique : ℚ)) / (total : ℚ))

/-- Go `int(x)`: truncation toward zero, on exact rationals. -/
def truncInt (x : ℚ) : Int :=
  if 0 ≤ x then ⌊x⌋ else -⌊-x⌋

/-- One CacheRecommendation as built in the Go scan loop.  The human-readable
recommendation string is modelled by the TTL number interpolated into it,
`int(avg_latency/1000)*10`. -/
structure CacheRecommendation where
  endpoint : String
  cacheHitRatio : ℚ
  potentialSavings : ℚ
  recommendedTTL : Int
deriving DecidableEq

def mkRecommendation (s : EndpointStats) : CacheRecommendation :=
  let ratio := hitRatio s.totalRequests s.uniqueRequests
  { endpoint := s.endpoint
    cacheHitRatio := ratio
    potentialSavings := s.totalCost * (ratio / 100) * (8 / 10)
    recommendedTTL := truncInt (s.avgLatency / 1000) * 10 }

/-- The stats rows that survive `WHERE unique_requests < total_requests`. -/
def cacheCandidates (now : Int) (records : List UsageRecord) :
    List EndpointStats :=
  (endpointStats now records).filter
    (fun s => decide (s.uniqueRequests < s.totalRequests))

/-- The full cache-opportunity query and scan loop:
`ORDER BY cache_hit_ratio DESC LIMIT 50`, then one recommendation per row. -/
def analyzeCacheOpportunities (now : Int) (records : List UsageRecord) :
    List CacheRecommendation :=
  ((sortBy (fun a b =>
      decide (hitRatio b.totalRequests b.uniqueRequests ≤
        hitRatio a.totalRequests a.uniqueRequests))
    (cacheCandidates now records)).take 50).map mkRecommendation

/-! ## Anomaly detection (detectAnomalies) -/

/-- TimescaleDB `time_bucket('1 hour', time)`: the timestamp floored to its
hour. -/
def hourBucket (t : Int) : Int :=
  (t.fdiv 3600) * 3600

/-- One row of the hourly_costs CTE: `GROUP BY hour, organization_id` with
`SUM(cost)` and `COUNT(*)`. -/
structure HourBucket where
  hour : Int
  orgId : Int
  hourlyCost : ℚ
  requestCount : Nat
deriving DecidableEq

def hourlyCosts (now : Int) (records : List UsageRecord) : List HourBucket :=
  (groupBy (fun r => (hourBucket r.time, r.organizationId))
      (windowRecords 86400 now records)).map
    (fun g =>
      { hour := g.1.1
        orgId := g.1.2
        hourlyCost := (g.2.map (fun r => r.cost)).sum
        requestCount := g.2.length })

/-- SQL `AVG` over a nonempty list of numerics. -/
def meanQ (l : List ℚ) : ℚ :=
  l.sum / (l.length : ℚ)

/-- PostgreSQL `STDDEV` (sample standard deviation) carried around by its
square, so that the model stays inside ℚ: `none` is SQL NULL (fewer than two
rows), otherwise the sample variance Σ(x − mean)² / (n − 1). -/
def sampleVarQ (l : List ℚ) : Option ℚ :=
  if l.length ≤ 1 then none
  else some ((l.map (fun x => (x - meanQ l) ^ 2)).sum / ((l.length : ℚ) - 1))

/-- The avg_costs CTE: per organization, AVG and STDDEV of its hourly
costs. -/
def orgStats (buckets : List HourBucket) : List (Int × ℚ × Option ℚ) :=
  (groupBy (fun b => b.orgId) buckets).map
    (fun g =>
      (g.1, meanQ (g.2.map (fun b => b.hourlyCost)),
        sampleVarQ (g.2.map (fun b => b.hourlyCost))))

/-- `hourly_cost > avg_cost + 3 * stddev_cost` with SQL NULL semantics: a NULL
standard deviation compares to nothing.  Over ℚ the inequality against
3·√variance is decided by its squared form (variance is nonnegative). -/
def exceedsThreshold (c avg : ℚ) : Option ℚ → Bool
  | none => false
  | some v => decide (avg < c) && decide (9 * v < (c - avg) ^ 2)

/-- The join of hourly_costs with avg_costs filtered by the spike condition;
each flagged bucket keeps the organization average the query selects. -/
def flaggedBuckets (now : Int) (records : List UsageRecord) :
    List (HourBucket × ℚ) :=
  let hb := hourlyCosts now records
  let stats := orgStats hb
  hb.filterMap (fun b =>
    match stats.find? (fun s => decide (s.1 = b.orgId)) with
    | some s =>
        if exceedsThreshold b.hourlyCost s.2.1 s.2.2 then some (b, s.2.1)
        else none
    | none => none)

/-- The payload of the Go description string
"Cost spike: $… (…% above average). … requests/hour." -/
structure AnomalyInfo where
  hourlyCost : ℚ
  spikePct : ℚ
  requestCount : Nat
deriving DecidableEq

/-- One Anomaly as built in the scan loop. -/
structure Anomaly where
  type : String
  severity : String
  description : AnomalyInfo
  detectedAt : Int
deriving DecidableEq

def mkAnomaly (p : HourBucket × ℚ) : Anomaly :=
  { type := "cost_spike"
    severity := "high"
    description :=
      { hourlyCost := p.1.hourlyCost
        spikePct := (p.1.hourlyCost - p.2) / p.2 * 100
        requestCount := p.1.requestCount }
    detectedAt := p.1.hour }

/-- The anomaly query and scan loop: flagged buckets `ORDER BY hour DESC`,
one anomaly per row. -/
def detectAnomalies (now : Int) (records : List UsageRecord) : List Anomaly :=
  (sortBy (fun a b => decide (b.1.hour ≤ a.1.hour))
    (flaggedBuckets now records)).map mkAnomaly

/-- The hourly costs of one organization inside the window (the list AVG and
STDDEV range over in avg_costs). -/
def orgCosts (now : Int) (records : List UsageRecord) (org : Int) : List ℚ :=
  ((hourlyCosts now records).filter (fun b => decide (b.orgId = org))).map
    (fun b => b.hourlyCost)

/-! ## The Redis effects of each job run -/

/-- The per-provider cost rollup row of services/cost-tracker/main.go. -/
structure CostBreakdown where
  label : String
  cost : ℚ
  requestCount : Nat
  avgLatency : ℚ
  errorCount : Nat
deriving DecidableEq

/-- A serialized artifact value, modelled structurally (json.Marshal output
with stable field names). `emptyArray` is the `[]interface{}` default the
gateway substitutes for keys other than the cost rollup. -/
inductive ArtifactValue where
  | duplicates (groups : List DuplicateGroup)
  | recommendations (recs : List CacheRecommendation)
  | anomalies (anoms : List Anomaly)
  | costRollup (breakdown : List CostBreakdown) (totalCost : ℚ)
      (updatedAt : Option Int)
  | emptyArray
deriving DecidableEq

/-- One Redis side effect: `SET key value TTL` (TTL in seconds) or
`PUBLISH channel message`. -/
inductive CacheOp where
  | set (key : String) (value : ArtifactValue) (ttlSeconds : Nat)
  | publish (channel : String) (message : ArtifactValue)
deriving DecidableEq

def CacheOp.isPublish : CacheOp → Bool
  | .set _ _ _ => false
  | .publish _ _ => true

/-- The derived-state cache: latest value per key. -/
def Cache : Type := String → Option ArtifactValue

def applyOp (c : Cache) : CacheOp → Cache
  | .set k v _ => fun key => if key = k then some v else c key
  | .publish _ _ => c

def applyOps (c : Cache) : List CacheOp → Cache
  | [] => c
  | op :: ops => applyOps (applyOp c op) ops

def emptyCache : Cache := fun _ => none

/-- One cycle of detectDuplicates: on query error, log and return (no write);
on success, write the artifact only when at least one group was found
(10-minute TTL). -/
def detectDuplicatesJob (now : Int) (queryResult : Option (List UsageRecord)) :
    List CacheOp :=
  match queryResult with
  | none => []
  | some records =>
      let dups := detectDuplicates now records
      if 0 < dups.length then
        [CacheOp.set "analytics:duplicates" (.duplicates dups) 600]
      else []

/-- One cycle of analyzeCacheOpportunities: write only a nonempty result
(10-minute TTL). -/
def analyzeCacheOpportunitiesJob (now : Int)
    (queryResult : Option (List UsageRecord)) : List CacheOp :=
  match queryResult with
  | none => []
  | some records =>
      let recs := analyzeCacheOpportunities now records
      if 0 < recs.length then
        [CacheOp.set "analytics:cache_recommendations" (.recommendations recs) 600]
      else []

/-- One cycle of detectAnomalies: write only a nonempty result (10-minute
TTL). -/
def detectAnomaliesJob (now : Int) (queryResult : Option (List UsageRecord)) :
    List CacheOp :=
  match queryResult with
  | none => []
  | some records =>
      let anoms := detectAnomalies now records
      if 0 < anoms.length then
        [CacheOp.set "analytics:anomalies" (.anomalies anoms) 600]
      else []

/-! ## Cost rollup (services/cost-tracker/main.go, calculateRealTimeCosts) -/

/-- The cost query: last 24 hours grouped by provider with COUNT, SUM(cost),
AVG(latency_ms), error count (status ≥ 400), `ORDER BY total_cost DESC`. -/
def costBreakdowns (now : Int) (records : List UsageRecord) :
    List CostBreakdown :=
  sortBy (fun a b => decide (b.cost ≤ a.cost))
    ((groupBy (fun r => r.provider) (windowRecords 86400 now records)).map
      (fun g =>
        { label := g.1
          cost := (g.2.map (fun r => r.cost)).sum
          requestCount := g.2.length
          avgLatency := (g.2.map (fun r => r.latencyMs)).sum / g.2.length
          errorCount := (g.2.filter (fun r => decide (400 ≤ r.statusCode))).length }))

/-- One cycle of calculateRealTimeCosts: on query error, log and return; on
success, unconditionally SET the rollup (breakdown, accumulated total, a
computation timestamp) with a 5-minute TTL.  No publish is performed. -/
def calculateRealTimeCosts (now : Int)
    (queryResult : Option (List UsageRecord)) : List CacheOp :=
  match queryResult with
  | none => []
  | some records =>
      let breakdown := costBreakdowns now records
      let total := (breakdown.map (fun b => b.cost)).sum
      [CacheOp.set "costs:24h:by_provider"
        (.costRollup breakdown total (some now)) 300]

/-! ## Realtime gateway (gateway unit of the analytics service) -/

/-- getRedisData: the cached value under `key`, or the documented default
when Redis has none (absent or expired): the empty rollup for the cost key,
an empty array otherwise.  Values being structural, the json.Unmarshal
failure branch cannot occur in the model. -/
def getRedisData (cache : Cache) (key : String) : ArtifactValue :=
  match cache key with
  | some v => v
  | none =>
      if key = "costs:24h:by_provider" then .costRollup [] 0 none
      else .emptyArray

/-- A websocket frame the gateway writes: the labeled initial snapshot, a
forwarded pub/sub event (re-serialized verbatim), or the keepalive ping. -/
inductive WsMsg where
  | initialData (data : ArtifactValue) (timestamp : Int)
  | event (payload : ArtifactValue)
  | ping
deriving DecidableEq

def WsMsg.isInitialData : WsMsg → Bool
  | .initialData _ _ => true
  | _ => false

/-- getInitialData: the cost-rollup artifact (or its default) labeled
initial_data with a unix timestamp. -/
def getInitialData (now : Int) (cache : Cache) : WsMsg :=
  .initialData (getRedisData cache "costs:24h:by_provider") now

/-- One arrival at the streaming select loop: the client-read goroutine
signalling EOF/error, a pub/sub message (`none` for a payload that fails to
unmarshal) whose forwarding write succeeds or fails, or a 30-second tick
whose ping write succeeds or fails. -/
inductive GwEvent where
  | clientGone
  | pubsub (payload : Option ArtifactValue) (writeOk : Bool)
  | tick (writeOk : Bool)

/-- The streaming select loop: the frames actually delivered to the client,
in order.  A client disconnect or any failed write leaves the loop; a
malformed pub/sub payload is skipped. -/
def streamLoop : List GwEvent → List WsMsg
  | [] => []
  | .clientGone :: _ => []
  | .pubsub none _ :: rest => streamLoop rest
  | .pubsub (some p) true :: rest => .event p :: streamLoop rest
  | .pubsub (some _) false :: _ => []
  | .tick true :: rest => .ping :: streamLoop rest
  | .tick false :: _ => []

/-- handleWebSocket after a successful upgrade: send the initial snapshot;
if that write fails, return at once (the connection closes, the streaming
loop is never entered), otherwise stream.  Returns the delivered frames and
whether the streaming phase was entered. -/
def handleWebSocket (now : Int) (cache : Cache) (initialSendOk : Bool)
    (events : List GwEvent) : List WsMsg × Bool :=
  if initialSendOk then (getInitialData now cache :: streamLoop events, true)
  else ([], false)

/-! ## Generic facts about the sorted outputs -/

theorem pairwise_sortBy_key {α β : Type} [LinearOrder β] (f : α → β)
    (l : List α) :
    List.Pairwise (fun a b => f b ≤ f a)
      (sortBy (fun a b => decide (f b ≤ f a)) l) := by
  have h := pairwise_sortBy (fun a b => decide (f b ≤ f a)) ?_ ?_ l
  · exact h.imp (fun hx => of_decide_eq_true hx)
  · intro a b
    rcases le_total (f b) (f a) with h | h
    · exact Or.inl (decide_eq_true h)
    · exact Or.inr (decide_eq_true h)
  · intro a b c hab hbc
    exact decide_eq_true
      (le_trans (of_decide_eq_true hbc) (of_decide_eq_true hab))

/-! ## C8: a failed store query writes nothing, for every job -/

/-- C8: for each of the four jobs, a failed store query (the `err != nil`
branch of QueryContext) produces no Redis operation at all in that cycle, so
any previously cached artifact is untouched; the job returns normally, so the
failure stays inside its own cycle. -/
theorem storeFailureSkipsCycle (now : Int) (cache : Cache) :
    detectDuplicatesJob now none = [] ∧
    analyzeCacheOpportunitiesJob now none = [] ∧
    detectAnomaliesJob now none = [] ∧
    calculateRealTimeCosts now none = [] ∧
    applyOps cache (detectDuplicatesJob now none) = cache ∧
    applyOps cache (analyzeCacheOpportunitiesJob now none) = cache ∧
    applyOps cache (detectAnomaliesJob now none) = cache ∧
    applyOps cache (calculateRealTimeCosts now none) = cache :=
  ⟨rfl, rfl, rfl, rfl, rfl, rfl, rfl, rfl⟩

/-! ## C7: duplicate detection does not write an empty result -/

/-- C7: when detectDuplicates computes zero groups, the job performs no cache
write: the cache is left exactly as it was, so a previously stored duplicates
artifact stays visible. -/
theorem emptyDuplicatesNoWrite (now : Int) (records : List UsageRecord)
    (cache : Cache) (h : detectDuplicates now records = []) :
    detectDuplicatesJob now (some records) = [] ∧
    applyOps cache (detectDuplicatesJob now (some records)) = cache := by
  simp [detectDuplicatesJob, h, applyOps]

/-- Witness for C7 at the empty record set. -/
theorem emptyDuplicatesNoWrite_witness :
    detectDuplicatesJob 0 (some []) = [] ∧
    applyOps emptyCache (detectDuplicatesJob 0 (some [])) = emptyCache :=
  emptyDuplicatesNoWrite 0 [] emptyCache rfl

/-! ## C10: cache-opportunity and anomaly jobs do not write empty results -/

/-- C10: the no-write-on-empty behaviour also holds for the
cache-opportunity job and the anomaly job: a cycle whose result list is empty
performs no cache write and leaves the cache unchanged. -/
theorem emptyAnalysisNoWrite (now : Int) (records : List UsageRecord)
    (cache : Cache) :
    (analyzeCacheOpportunities now records = [] →
      analyzeCacheOpportunitiesJob now (some records) = [] ∧
      applyOps cache (analyzeCacheOpportunitiesJob now (some records)) = cache) ∧
    (detectAnomalies now records = [] →
      detectAnomaliesJob now (some records) = [] ∧
      applyOps cache (detectAnomaliesJob now (some records)) = cache) := by
  constructor
  · intro h
    simp [analyzeCacheOpportunitiesJob, h, applyOps]
  · intro h
    simp [detectAnomaliesJob, h, applyOps]

/-! ## C4: the cost rollup is always written -/

/-- C4: every successful cost-rollup cycle performs exactly one Redis write:
the rollup artifact under its fixed key with a 5-minute TTL and the
computation timestamp, replacing whatever was there (for any prior cache
state); with zero rows in the window the breakdown is empty and the total is
0; the artifact total is the sum of the per-provider costs of its breakdown,
and the breakdown is ordered by cost descending. -/
theorem costRollupAlwaysWritten (now : Int) (table : List UsageRecord)
    (cache : Cache) :
    calculateRealTimeCosts now (some table) =
      [CacheOp.set "costs:24h:by_provider"
        (.costRollup (costBreakdowns now table)
          ((costBreakdowns now table).map (fun b => b.cost)).sum (some now))
        300] ∧
    applyOps cache (calculateRealTimeCosts now (some table))
        "costs:24h:by_provider" =
      some (.costRollup (costBreakdowns now table)
        ((costBreakdowns now table).map (fun b => b.cost)).sum (some now)) ∧
    (windowRecords 86400 now table = [] →
      costBreakdowns now table = [] ∧
      ((costBreakdowns now table).map (fun b => b.cost)).sum = 0) ∧
    List.Pairwise (fun a b : CostBreakdown => b.cost ≤ a.cost)
      (costBreakdowns now table) := by
  refine ⟨rfl, ?_, ?_, ?_⟩
  · simp [calculateRealTimeCosts, applyOps, applyOp]
  · intro h
    simp [costBreakdowns, h, groupBy, sortBy]
  · exact pairwise_sortBy_key (fun b : CostBreakdown => b.cost) _

/-! ## C5: the cost rollup writes but does not publish -/

/-- C5 (amended): every successful cost-rollup cycle writes its artifact to
the cache, and emits nothing on the publish/subscribe channel: its effect
list is the single SET, with no PUBLISH anywhere. -/
theorem costRollupNoPublish (now : Int) (table : List UsageRecord) :
    (∃ v, calculateRealTimeCosts now (some table) =
      [CacheOp.set "costs:24h:by_provider" v 300]) ∧
    (calculateRealTimeCosts now (some table)).filter CacheOp.isPublish = [] :=
  ⟨⟨_, rfl⟩, rfl⟩

/-- C5 counterexample: a concrete successful rollup run (empty table) whose
effect list is exactly one SET and contains no publish/subscribe
notification, contrary to the claimed emit-after-write. -/
theorem costRollupNoPublish_cex :
    calculateRealTimeCosts 0 (some []) =
      [CacheOp.set "costs:24h:by_provider"
        (.costRollup [] 0 (some 0)) 300] ∧
    (calculateRealTimeCosts 0 (some [])).filter CacheOp.isPublish = [] := by
  constructor
  · simp [calculateRealTimeCosts, costBreakdowns, windowRecords, groupBy, sortBy]
  · rfl

/-! ## C9: the initial snapshot of a websocket connection -/

/-- No frame produced by the streaming loop is an initial_data frame. -/
theorem streamLoop_no_initial :
    ∀ events : List GwEvent, ∀ m ∈ streamLoop events, m.isInitialData = false := by
  intro events
  induction events with
  | nil => intro m hm; cases hm
  | cons e rest ih =>
    intro m hm
    match e with
    | .clientGone => cases hm
    | .pubsub none ok => exact ih m hm
    | .pubsub (some p) true =>
        rcases List.mem_cons.mp hm with hmp | hm
        · rw [hmp]; rfl
        · exact ih m hm
    | .pubsub (some p) false => cases hm
    | .tick true =>
        rcases List.mem_cons.mp hm with hmp | hm
        · rw [hmp]; rfl
        · exact ih m hm
    | .tick false => cases hm

/-- C9: on a new connection the very first delivered frame is the one
initial_data message, carrying the cached cost rollup or the empty default
(empty breakdown, total 0) when the key is absent/expired, with a unix
timestamp; it is the only initial_data frame ever sent; and when the initial
send fails the connection delivers nothing and never enters the streaming
phase. -/
theorem initialSnapshotFirst (now : Int) (cache : Cache)
    (events : List GwEvent) :
    (handleWebSocket now cache true events).1 =
      WsMsg.initialData (getRedisData cache "costs:24h:by_provider") now ::
        streamLoop events ∧
    (handleWebSocket now cache true events).1.countP WsMsg.isInitialData = 1 ∧
    (handleWebSocket now cache true events).2 = true ∧
    (∀ v, cache "costs:24h:by_provider" = some v →
      getRedisData cache "costs:24h:by_provider" = v) ∧
    (cache "costs:24h:by_provider" = none →
      getRedisData cache "costs:24h:by_provider" = .costRollup [] 0 none) ∧
    handleWebSocket now cache false events = ([], false) := by
  refine ⟨rfl, ?_, rfl, ?_, ?_, rfl⟩
  · have hnone : ∀ m ∈ streamLoop events, ¬ (WsMsg.isInitialData m = true) := by
      intro m hm
      rw [streamLoop_no_initial events m hm]
      simp
    simp [handleWebSocket, getInitialData, List.countP_cons,
      List.countP_eq_zero.mpr hnone, WsMsg.isInitialData]
  · intro v hv
    simp [getRedisData, hv]
  · intro hv
    simp [getRedisData, hv]

/-! ## C3: the duplicates artifact -/

/-- C3: every emitted duplicate group is the aggregate of the last-hour
records sharing one (organization, fingerprint, endpoint) key — the
fingerprint hashing endpoint, method and metadata — and has count > 1; the
artifact is sorted by summed cost descending, holds at most 100 groups, and
a nonempty artifact is cached under its fixed key with a 10-minute TTL. -/
theorem duplicatesArtifactContract (now : Int) (records : List UsageRecord) :
    (∀ d ∈ detectDuplicates now records,
      1 < d.count ∧
      ∃ org hash members,
        members = (windowRecords 3600 now records).filter
          (fun r => decide
            ((r.organizationId, requestHash r, r.endpoint) =
              (org, hash, d.endpoint))) ∧
        d.count = members.length ∧
        d.cost = (members.map (fun r => r.cost)).sum) ∧
    List.Pairwise (fun a b : DuplicateGroup => b.cost ≤ a.cost)
      (detectDuplicates now records) ∧
    (detectDuplicates now records).length ≤ 100 ∧
    (detectDuplicates now records ≠ [] →
      detectDuplicatesJob now (some records) =
        [CacheOp.set "analytics:duplicates"
          (.duplicates (detectDuplicates now records)) 600]) := by
  refine ⟨?_, ?_, ?_, ?_⟩
  · intro d hd
    have hd1 : d ∈ sortBy (fun a b => decide (b.cost ≤ a.cost))
        (((groupBy (fun r => (r.organizationId, requestHash r, r.endpoint))
            (windowRecords 3600 now records)).filter
          (fun g => decide (1 < g.2.length))).map mkDuplicateGroup) :=
      (List.take_sublist 100 _).subset hd
    have hd2 := (mem_sortBy _ _ _).mp hd1
    rcases List.mem_map.mp hd2 with ⟨g, hgf, rfl⟩
    rcases List.mem_filter.mp hgf with ⟨hg, hlen⟩
    have hlen2 : 1 < g.2.length := of_decide_eq_true hlen
    have hkey := groupBy_mem_eq _ _ g hg
    exact ⟨hlen2, g.1.1, g.1.2.1, g.2, hkey, rfl, rfl⟩
  · exact List.Pairwise.sublist (List.take_sublist 100 _)
      (pairwise_sortBy_key (fun d : DuplicateGroup => d.cost) _)
  · rw [detectDuplicates]
    simp [List.length_take]
  · intro h
    have hpos : 0 < (detectDuplicates now records).length :=
      List.length_pos.mpr h
    simp [detectDuplicatesJob, hpos]

/-! ## C2: cache-opportunity recommendations -/

theorem round2_nonneg (x : ℚ) (hx : 0 ≤ x) : 0 ≤ round2 x := by
  rw [round2, if_pos hx]
  have h0 : (0 : ℤ) ≤ ⌊x * 100 + 1 / 2⌋ := by
    apply Int.floor_nonneg.mpr
    linarith
  have h0q : (0 : ℚ) ≤ ((⌊x * 100 + 1 / 2⌋ : ℤ) : ℚ) := by exact_mod_cast h0
  linarith

theorem round2_le_100 (x : ℚ) (hx0 : 0 ≤ x) (hx : x ≤ 100) :
    round2 x ≤ 100 := by
  rw [round2, if_pos hx0]
  have h1 : ⌊x * 100 + 1 / 2⌋ < 10001 := by
    rw [Int.floor_lt]
    push_cast
    linarith
  have h2 : ⌊x * 100 + 1 / 2⌋ ≤ 10000 := by omega
  have h2q : ((⌊x * 100 + 1 / 2⌋ : ℤ) : ℚ) ≤ 10000 := by exact_mod_cast h2
  linarith

/-- C2: an endpoint of the filtered (GET, last 24h, status < 400) groups has
a recommendation candidate iff it has strictly more than 10 calls and
strictly fewer distinct fingerprints than calls; every emitted
recommendation carries the rounded ratio 100·(total − distinct)/total, which
lies in [0, 100], and savings total-cost·(ratio/100)·0.8; the output is
sorted by ratio descending and capped at 50. -/
theorem cacheOpportunityContract (now : Int) (records : List UsageRecord) :
    (∀ g ∈ groupBy (fun r => r.endpoint) (cacheFiltered now records),
      ((∃ s ∈ cacheCandidates now records, s.endpoint = g.1) ↔
        (10 < g.2.length ∧
          ((g.2.map cacheHash).dedup).length < g.2.length))) ∧
    (∀ rec ∈ analyzeCacheOpportunities now records,
      ∃ g ∈ groupBy (fun r => r.endpoint) (cacheFiltered now records),
        rec.endpoint = g.1 ∧
        10 < g.2.length ∧
        ((g.2.map cacheHash).dedup).length < g.2.length ∧
        rec.cacheHitRatio =
          round2 (100 * ((g.2.length : ℚ) -
            ((((g.2.map cacheHash).dedup).length : ℕ) : ℚ)) /
              (g.2.length : ℚ)) ∧
        0 ≤ rec.cacheHitRatio ∧ rec.cacheHitRatio ≤ 100 ∧
        rec.potentialSavings =
          (g.2.map (fun r => r.cost)).sum * (rec.cacheHitRatio / 100) *
            (8 / 10)) ∧
    List.Pairwise
      (fun a b : CacheRecommendation => b.cacheHitRatio ≤ a.cacheHitRatio)
      (analyzeCacheOpportunities now records) ∧
    (analyzeCacheOpportunities now records).length ≤ 50 := by
  refine ⟨?_, ?_, ?_, ?_⟩
  · intro g hg
    constructor
    · rintro ⟨s, hs, hse⟩
      rcases List.mem_filter.mp hs with ⟨hstat, hu⟩
      rcases List.mem_map.mp hstat with ⟨g', hg'f, rfl⟩
      rcases List.mem_filter.mp hg'f with ⟨hg', h10⟩
      have h10' : 10 < g'.2.length := of_decide_eq_true h10
      have hu' := of_decide_eq_true hu
      have hkeys : g'.1 = g.1 := hse
      have e2 := groupBy_mem_eq _ _ g hg
      have e2' := groupBy_mem_eq _ _ g' hg'
      have hsame : g.2 = g'.2 := by rw [e2, e2', hkeys]
      rw [hsame]
      exact ⟨h10', hu'⟩
    · rintro ⟨h10, hu⟩
      refine ⟨⟨g.1, g.2.length, ((g.2.map cacheHash).dedup).length,
        (g.2.map (fun r => r.cost)).sum,
        (g.2.map (fun r => r.latencyMs)).sum / g.2.length⟩, ?_, rfl⟩
      refine List.mem_filter.mpr ⟨?_, decide_eq_true hu⟩
      exact List.mem_map.mpr
        ⟨g, List.mem_filter.mpr ⟨hg, decide_eq_true h10⟩, rfl⟩
  · intro rec hrec
    rcases List.mem_map.mp hrec with ⟨s, hs_take, rfl⟩
    have hs_sorted : s ∈ sortBy (fun a b =>
        decide (hitRatio b.totalRequests b.uniqueRequests ≤
          hitRatio a.totalRequests a.uniqueRequests))
        (cacheCandidates now records) :=
      (List.take_sublist 50 _).subset hs_take
    have hs : s ∈ cacheCandidates now records := (mem_sortBy _ _ _).mp hs_sorted
    rcases List.mem_filter.mp hs with ⟨hstat, hu⟩
    rcases List.mem_map.mp hstat with ⟨g, hgf, rfl⟩
    rcases List.mem_filter.mp hgf with ⟨hg, h10⟩
    have h10' : 10 < g.2.length := of_decide_eq_true h10
    have hu' : ((g.2.map cacheHash).dedup).length < g.2.length :=
      of_decide_eq_true hu
    have htq : (0 : ℚ) < (g.2.length : ℚ) := by
      exact_mod_cast Nat.lt_of_lt_of_le (by norm_num) (le_of_lt h10')
    have huq : (((g.2.map cacheHash).dedup).length : ℚ) ≤ (g.2.length : ℚ) := by
      exact_mod_cast Nat.le_trans
        (List.Sublist.length_le (List.dedup_sublist _))
        (le_of_eq (List.length_map _ _))
    have hx0 : 0 ≤ 100 * ((g.2.length : ℚ) -
        (((g.2.map cacheHash).dedup).length : ℚ)) / (g.2.length : ℚ) := by
      apply div_nonneg _ (le_of_lt htq)
      linarith
    have hx100 : 100 * ((g.2.length : ℚ) -
        (((g.2.map cacheHash).dedup).length : ℚ)) / (g.2.length : ℚ) ≤ 100 := by
      rw [div_le_iff₀ htq]
      have hu0 : (0 : ℚ) ≤ (((g.2.map cacheHash).dedup).length : ℚ) := by
        exact_mod_cast Nat.zero_le _
      linarith
    refine ⟨g, hg, rfl, h10', hu', rfl, ?_, ?_, rfl⟩
    · exact round2_nonneg _ hx0
    · exact round2_le_100 _ hx0 hx100
  · have hp := pairwise_sortBy_key
      (fun s : EndpointStats => hitRatio s.totalRequests s.uniqueRequests)
      (cacheCandidates now records)
    have hq := List.Pairwise.sublist (List.take_sublist 50 _) hp
    rw [analyzeCacheOpportunities, List.pairwise_map]
    exact hq
  · rw [analyzeCacheOpportunities]
    simp [List.length_take]

/-! ## C1: anomaly detection -/

theorem find?_keyed_map {κ β : Type} [DecidableEq κ] (f : κ → β) (k : κ) :
    ∀ keys : List κ, k ∈ keys →
      (keys.map (fun x => (x, f x))).find? (fun p => decide (p.1 = k)) =
        some (k, f k) := by
  intro keys
  induction keys with
  | nil => intro h; cases h
  | cons x xs ih =>
    intro hk
    by_cases hxk : x = k
    · subst hxk
      rw [List.map_cons, List.find?_cons_of_pos]
      simp
    · have hk2 : k ∈ xs := by
        rcases List.mem_cons.mp hk with h | h
        · exact absurd h.symm hxk
        · exact h
      rw [List.map_cons, List.find?_cons_of_neg, ih hk2]
      simp [hxk]

theorem orgStats_eq (buckets : List HourBucket) :
    orgStats buckets =
      ((buckets.map (fun b => b.orgId)).dedup).map
        (fun k =>
          (k,
            meanQ ((buckets.filter (fun b => decide (b.orgId = k))).map
              (fun b => b.hourlyCost)),
            sampleVarQ ((buckets.filter (fun b => decide (b.orgId = k))).map
              (fun b => b.hourlyCost)))) := by
  simp only [orgStats, groupBy, List.map_map]
  rfl

theorem orgStats_find (now : Int) (records : List UsageRecord)
    (b : HourBucket) (hb : b ∈ hourlyCosts now records) :
    (orgStats (hourlyCosts now records)).find?
        (fun s => decide (s.1 = b.orgId)) =
      some (b.orgId, meanQ (orgCosts now records b.orgId),
        sampleVarQ (orgCosts now records b.orgId)) := by
  rw [orgStats_eq]
  have hk : b.orgId ∈
      ((hourlyCosts now records).map (fun b => b.orgId)).dedup :=
    List.mem_dedup.mpr (List.mem_map.mpr ⟨b, hb, rfl⟩)
  exact find?_keyed_map
    (fun k =>
      (meanQ (((hourlyCosts now records).filter
          (fun b => decide (b.orgId = k))).map (fun b => b.hourlyCost)),
        sampleVarQ (((hourlyCosts now records).filter
          (fun b => decide (b.orgId = k))).map (fun b => b.hourlyCost))))
    b.orgId _ hk

theorem filterMap_congr_mem {α β : Type} (f g : α → Option β) :
    ∀ l : List α, (∀ a ∈ l, f a = g a) → l.filterMap f = l.filterMap g := by
  intro l
  induction l with
  | nil => intro _; rfl
  | cons a as ih =>
    intro h
    rw [List.filterMap_cons, List.filterMap_cons, h a (by simp),
      ih (fun x hx => h x (by simp [hx]))]

theorem flaggedBuckets_eq (now : Int) (records : List UsageRecord) :
    flaggedBuckets now records =
      (hourlyCosts now records).filterMap (fun b =>
        if exceedsThreshold b.hourlyCost
            (meanQ (orgCosts now records b.orgId))
            (sampleVarQ (orgCosts now records b.orgId)) = true
        then some (b, meanQ (orgCosts now records b.orgId))
        else none) := by
  simp only [flaggedBuckets]
  apply filterMap_congr_mem
  intro b hb
  rw [orgStats_find now records b hb]

theorem sampleVarQ_nonneg (l : List ℚ) (v : ℚ) (h : sampleVarQ l = some v) :
    0 ≤ v := by
  rw [sampleVarQ] at h
  by_cases hl : l.length ≤ 1
  · rw [if_pos hl] at h; cases h
  · rw [if_neg hl] at h
    have hv : (l.map (fun x => (x - meanQ l) ^ 2)).sum /
        ((l.length : ℚ) - 1) = v := Option.some.inj h
    rw [← hv]
    apply div_nonneg
    · apply List.sum_nonneg
      intro x hx
      rcases List.mem_map.mp hx with ⟨y, _, rfl⟩
      positivity
    · have h2 : 2 ≤ l.length := by omega
      have h2q : (2 : ℚ) ≤ (l.length : ℚ) := by exact_mod_cast h2
      linarith

theorem sum_eq_zero_mem :
    ∀ l : List ℚ, (∀ x ∈ l, 0 ≤ x) → l.sum = 0 → ∀ x ∈ l, x = 0 := by
  intro l
  induction l with
  | nil => intro _ _ x hx; cases hx
  | cons a as ih =>
    intro hpos h x hx
    have ha : 0 ≤ a := hpos a (by simp)
    have has : 0 ≤ as.sum :=
      List.sum_nonneg (fun y hy => hpos y (by simp [hy]))
    rw [List.sum_cons] at h
    rcases List.mem_cons.mp hx with hxa | hxs
    · rw [hxa]; linarith
    · exact ih (fun y hy => hpos y (by simp [hy])) (by linarith) x hxs

theorem sampleVarQ_eq_zero (l : List ℚ) (h : sampleVarQ l = some 0) :
    ∀ x ∈ l, x = meanQ l := by
  rw [sampleVarQ] at h
  by_cases hl : l.length ≤ 1
  · rw [if_pos hl] at h; cases h
  · rw [if_neg hl] at h
    have hv : (l.map (fun x => (x - meanQ l) ^ 2)).sum /
        ((l.length : ℚ) - 1) = 0 := Option.some.inj h
    have hn : ((l.length : ℚ) - 1) ≠ 0 := by
      have h2 : 2 ≤ l.length := by omega
      have h2q : (2 : ℚ) ≤ (l.length : ℚ) := by exact_mod_cast h2
      intro hzero
      linarith
    have hsum : (l.map (fun x => (x - meanQ l) ^ 2)).sum = 0 := by
      rcases div_eq_zero_iff.mp hv with h0 | h0
      · exact h0
      · exact absurd h0 hn
    intro x hx
    have hx2 : (x - meanQ l) ^ 2 = 0 :=
      sum_eq_zero_mem _
        (fun y hy => by
          rcases List.mem_map.mp hy with ⟨z, _, rfl⟩
          positivity)
        hsum _ (List.mem_map.mpr ⟨x, hx, rfl⟩)
    have hx3 : x - meanQ l = 0 := by
      exact pow_eq_zero_iff (by norm_num) |>.mp hx2
    linarith

theorem exceedsThreshold_iff_real (c avg v : ℚ) (hv : 0 ≤ v) :
    exceedsThreshold c avg (some v) = true ↔
      (avg : ℝ) + 3 * Real.sqrt (v : ℝ) < (c : ℝ) := by
  rw [exceedsThreshold, Bool.and_eq_true, decide_eq_true_eq,
    decide_eq_true_eq]
  have hvR : (0 : ℝ) ≤ (v : ℝ) := by exact_mod_cast hv
  have hs0 : 0 ≤ Real.sqrt (v : ℝ) := Real.sqrt_nonneg _
  have hs2 : Real.sqrt (v : ℝ) ^ 2 = (v : ℝ) := Real.sq_sqrt hvR
  constructor
  · rintro ⟨h1, h2⟩
    have h1R : (avg : ℝ) < (c : ℝ) := by exact_mod_cast h1
    have h2R : 9 * (v : ℝ) < ((c : ℝ) - (avg : ℝ)) ^ 2 := by
      exact_mod_cast h2
    have hsq : (3 * Real.sqrt (v : ℝ)) ^ 2 = 9 * (v : ℝ) := by
      rw [mul_pow, hs2]; norm_num
    have h3 : (3 * Real.sqrt (v : ℝ)) ^ 2 < ((c : ℝ) - (avg : ℝ)) ^ 2 := by
      rw [hsq]; exact h2R
    have h4 : 3 * Real.sqrt (v : ℝ) < (c : ℝ) - (avg : ℝ) :=
      lt_of_pow_lt_pow_left₀ 2 (by linarith) h3
    linarith
  · intro h
    have h4 : 3 * Real.sqrt (v : ℝ) < (c : ℝ) - (avg : ℝ) := by linarith
    have h1R : (avg : ℝ) < (c : ℝ) := by linarith
    have hsq : (3 * Real.sqrt (v : ℝ)) ^ 2 = 9 * (v : ℝ) := by
      rw [mul_pow, hs2]; norm_num
    have h5 : (3 * Real.sqrt (v : ℝ)) ^ 2 < ((c : ℝ) - (avg : ℝ)) ^ 2 :=
      pow_lt_pow_left₀ h4 (by linarith) (by norm_num)
    have h2R : 9 * (v : ℝ) < ((c : ℝ) - (avg : ℝ)) ^ 2 := by
      rw [hsq] at h5; exact h5
    refine ⟨by exact_mod_cast h1R, by exact_mod_cast h2R⟩

theorem mem_flagged_elim (now : Int) (records : List UsageRecord)
    (p : HourBucket × ℚ) (hp : p ∈ flaggedBuckets now records) :
    p.1 ∈ hourlyCosts now records ∧
    p.2 = meanQ (orgCosts now records p.1.orgId) ∧
    exceedsThreshold p.1.hourlyCost (meanQ (orgCosts now records p.1.orgId))
      (sampleVarQ (orgCosts now records p.1.orgId)) = true := by
  rw [flaggedBuckets_eq] at hp
  rcases List.mem_filterMap.mp hp with ⟨b, hb, hfb⟩
  by_cases hex : exceedsThreshold b.hourlyCost
      (meanQ (orgCosts now records b.orgId))
      (sampleVarQ (orgCosts now records b.orgId)) = true
  · rw [if_pos hex] at hfb
    have he := Option.some.inj hfb
    rw [← he]
    exact ⟨hb, rfl, hex⟩
  · rw [if_neg hex] at hfb
    cases hfb

theorem mem_flagged_intro (now : Int) (records : List UsageRecord)
    (b : HourBucket) (hb : b ∈ hourlyCosts now records)
    (hex : exceedsThreshold b.hourlyCost
      (meanQ (orgCosts now records b.orgId))
      (sampleVarQ (orgCosts now records b.orgId)) = true) :
    (b, meanQ (orgCosts now records b.orgId)) ∈ flaggedBuckets now records := by
  rw [flaggedBuckets_eq]
  exact List.mem_filterMap.mpr ⟨b, hb, by rw [if_pos hex]⟩

theorem bucket_cost_mem_orgCosts (now : Int) (records : List UsageRecord)
    (b : HourBucket) (hb : b ∈ hourlyCosts now records) :
    b.hourlyCost ∈ orgCosts now records b.orgId :=
  List.mem_map.mpr ⟨b, List.mem_filter.mpr ⟨hb, by simp⟩, rfl⟩

/-- C1: every emitted anomaly has severity "high" (and type cost_spike); the
output is ordered newest bucket first; there is exactly one anomaly per
flagged bucket (the lists are in bijection by mkAnomaly); an (organization,
hour) bucket of the trailing window is flagged iff its hourly cost strictly
exceeds its organization's mean plus three standard deviations (over ℝ, with
the standard deviation defined, i.e. at least two buckets); and an
organization whose standard deviation is undefined (NULL) or zero
contributes no flagged bucket. -/
theorem anomalyContract (now : Int) (records : List UsageRecord) :
    (∀ a ∈ detectAnomalies now records,
      a.severity = "high" ∧ a.type = "cost_spike") ∧
    List.Pairwise (fun a b : Anomaly => b.detectedAt ≤ a.detectedAt)
      (detectAnomalies now records) ∧
    (detectAnomalies now records).length =
      (flaggedBuckets now records).length ∧
    (∀ a ∈ detectAnomalies now records,
      ∃ p ∈ flaggedBuckets now records, a = mkAnomaly p) ∧
    (∀ p ∈ flaggedBuckets now records,
      mkAnomaly p ∈ detectAnomalies now records) ∧
    (∀ b ∈ hourlyCosts now records,
      ((∃ avg, (b, avg) ∈ flaggedBuckets now records) ↔
        (∃ v, sampleVarQ (orgCosts now records b.orgId) = some v ∧
          (meanQ (orgCosts now records b.orgId) : ℝ) +
            3 * Real.sqrt (v : ℝ) < (b.hourlyCost : ℝ)))) ∧
    (∀ b ∈ hourlyCosts now records,
      (sampleVarQ (orgCosts now records b.orgId) = none ∨
        sampleVarQ (orgCosts now records b.orgId) = some 0) →
      ∀ avg, (b, avg) ∉ flaggedBuckets now records) := by
  refine ⟨?_, ?_, ?_, ?_, ?_, ?_, ?_⟩
  · intro a ha
    rcases List.mem_map.mp ha with ⟨p, _, rfl⟩
    exact ⟨rfl, rfl⟩
  · rw [detectAnomalies, List.pairwise_map]
    exact pairwise_sortBy_key (fun p : HourBucket × ℚ => p.1.hour) _
  · rw [detectAnomalies, List.length_map, length_sortBy]
  · intro a ha
    rcases List.mem_map.mp ha with ⟨p, hp, rfl⟩
    exact ⟨p, (mem_sortBy _ _ _).mp hp, rfl⟩
  · intro p hp
    exact List.mem_map.mpr ⟨p, (mem_sortBy _ _ _).mpr hp, rfl⟩
  · intro b hb
    constructor
    · rintro ⟨avg, hmem⟩
      have h3 : exceedsThreshold b.hourlyCost
          (meanQ (orgCosts now records b.orgId))
          (sampleVarQ (orgCosts now records b.orgId)) = true :=
        (mem_flagged_elim now records (b, avg) hmem).2.2
      cases hvar : sampleVarQ (orgCosts now records b.orgId) with
      | none => rw [hvar] at h3; simp [exceedsThreshold] at h3
      | some v =>
        rw [hvar] at h3
        have hv0 := sampleVarQ_nonneg _ _ hvar
        exact ⟨v, rfl, (exceedsThreshold_iff_real _ _ _ hv0).mp h3⟩
    · rintro ⟨v, hvar, hlt⟩
      have hv0 := sampleVarQ_nonneg _ _ hvar
      have hex : exceedsThreshold b.hourlyCost
          (meanQ (orgCosts now records b.orgId))
          (sampleVarQ (orgCosts now records b.orgId)) = true := by
        rw [hvar]
        exact (exceedsThreshold_iff_real _ _ _ hv0).mpr hlt
      exact ⟨_, mem_flagged_intro now records b hb hex⟩
  · intro b hb hvar avg hmem
    have h3 : exceedsThreshold b.hourlyCost
        (meanQ (orgCosts now records b.orgId))
        (sampleVarQ (orgCosts now records b.orgId)) = true :=
      (mem_flagged_elim now records (b, avg) hmem).2.2
    rcases hvar with hnone | hzero
    · rw [hnone] at h3
      simp [exceedsThreshold] at h3
    · rw [hzero, exceedsThreshold, Bool.and_eq_true, decide_eq_true_eq,
        decide_eq_true_eq] at h3
      obtain ⟨h1, _⟩ := h3
      have hc : b.hourlyCost = meanQ (orgCosts now records b.orgId) :=
        sampleVarQ_eq_zero _ hzero _
          (bucket_cost_mem_orgCosts now records b hb)
      rw [hc] at h1
      exact lt_irrefl _ h1

/-! ## C6: eligibility for anomaly detection -/

/-- C6 (amended): an organization yields no flagged bucket in a cycle iff
excluded by degenerate statistics — fewer than two hourly buckets (NULL
standard deviation) or zero variance; no fuller history is required. -/
theorem anomalyEligibility (now : Int) (records : List UsageRecord)
    (org : Int)
    (h : (orgCosts now records org).length ≤ 1 ∨
      sampleVarQ (orgCosts now records org) = some 0) :
    ∀ p ∈ flaggedBuckets now records, p.1.orgId ≠ org := by
  intro p hp heq
  have h3 : exceedsThreshold p.1.hourlyCost
      (meanQ (orgCosts now records p.1.orgId))
      (sampleVarQ (orgCosts now records p.1.orgId)) = true :=
    (mem_flagged_elim now records p hp).2.2
  rw [heq] at h3
  rcases h with hlen | hzero
  · have hnone : sampleVarQ (orgCosts now records org) = none := by
      rw [sampleVarQ, if_pos hlen]
    rw [hnone] at h3
    simp [exceedsThreshold] at h3
  · rw [hzero, exceedsThreshold, Bool.and_eq_true, decide_eq_true_eq,
      decide_eq_true_eq] at h3
    obtain ⟨h1, _⟩ := h3
    have hmem : p.1.hourlyCost ∈ orgCosts now records org := by
      rw [← heq]
      exact bucket_cost_mem_orgCosts now records p.1
        (mem_flagged_elim now records p hp).1
    have hc : p.1.hourlyCost = meanQ (orgCosts now records org) :=
      sampleVarQ_eq_zero _ hzero _ hmem
    rw [hc] at h1
    exact lt_irrefl _ h1

/-- A record set giving one organization a single hourly bucket. -/
def soloRecord : UsageRecord :=
  { time := 1, organizationId := 5, provider := "prov", endpoint := "/api"
    method := "GET", statusCode := 200, latencyMs := 1, cost := 1
    metadata := "" }

/-- Witness for C6 (amended) at a one-bucket organization. -/
theorem anomalyEligibility_witness :
    (flaggedBuckets 0 [soloRecord]).all
      (fun p => decide (p.1.orgId ≠ 5)) = true := by
  rw [List.all_eq_true]
  intro p hp
  refine decide_eq_true (anomalyEligibility 0 [soloRecord] 5 (Or.inl ?_) p hp)
  norm_num [orgCosts, hourlyCosts, windowRecords, groupBy, soloRecord,
    hourBucket]

theorem hourBucket_evals :
    hourBucket 3600 = 3600 ∧ hourBucket 7200 = 7200 ∧
    hourBucket 10800 = 10800 ∧ hourBucket 14400 = 14400 ∧
    hourBucket 18000 = 18000 ∧ hourBucket 21600 = 21600 ∧
    hourBucket 25200 = 25200 ∧ hourBucket 28800 = 28800 ∧
    hourBucket 32400 = 32400 ∧ hourBucket 36000 = 36000 ∧
    hourBucket 39600 = 39600 := by
  refine ⟨?_, ?_, ?_, ?_, ?_, ?_, ?_, ?_, ?_, ?_, ?_⟩ <;> decide

/-- Eleven one-record hourly buckets for organization 1: ten hours of cost 0
and one hour of cost 110 (mean 10, sample variance 1100, so the 110 bucket
exceeds mean + 3·σ ≈ 109.5). -/
def recs11 : List UsageRecord :=
  [⟨3600 * 1, 1, "p", "/e", "GET", 200, 1, 0, ""⟩,
   ⟨3600 * 2, 1, "p", "/e", "GET", 200, 1, 0, ""⟩,
   ⟨3600 * 3, 1, "p", "/e", "GET", 200, 1, 0, ""⟩,
   ⟨3600 * 4, 1, "p", "/e", "GET", 200, 1, 0, ""⟩,
   ⟨3600 * 5, 1, "p", "/e", "GET", 200, 1, 0, ""⟩,
   ⟨3600 * 6, 1, "p", "/e", "GET", 200, 1, 0, ""⟩,
   ⟨3600 * 7, 1, "p", "/e", "GET", 200, 1, 0, ""⟩,
   ⟨3600 * 8, 1, "p", "/e", "GET", 200, 1, 0, ""⟩,
   ⟨3600 * 9, 1, "p", "/e", "GET", 200, 1, 0, ""⟩,
   ⟨3600 * 10, 1, "p", "/e", "GET", 200, 1, 0, ""⟩,
   ⟨3600 * 11, 1, "p", "/e", "GET", 200, 1, 110, ""⟩]

/-- C6 counterexample: an organization with only 11 hourly buckets — far
less than a full trailing 24-hour window — still yields an anomaly, so no
full-window eligibility requirement exists in the code. -/
theorem anomalyEligibility_cex :
    ((hourlyCosts 86400 recs11).filter
      (fun b => decide (b.orgId = 1))).length = 11 ∧
    (11 : Nat) < 24 ∧
    detectAnomalies 86400 recs11 ≠ [] := by
  have hB : hourlyCosts 86400 recs11 =
      [⟨3600 * 1, 1, 0, 1⟩, ⟨3600 * 2, 1, 0, 1⟩, ⟨3600 * 3, 1, 0, 1⟩,
       ⟨3600 * 4, 1, 0, 1⟩, ⟨3600 * 5, 1, 0, 1⟩, ⟨3600 * 6, 1, 0, 1⟩,
       ⟨3600 * 7, 1, 0, 1⟩, ⟨3600 * 8, 1, 0, 1⟩, ⟨3600 * 9, 1, 0, 1⟩,
       ⟨3600 * 10, 1, 0, 1⟩, ⟨3600 * 11, 1, 110, 1⟩] := by
    norm_num [hourlyCosts, windowRecords, groupBy, recs11, hourBucket_evals]
  refine ⟨?_, by norm_num, ?_⟩
  · rw [hB]
    norm_num
  · have hcosts : orgCosts 86400 recs11 1 =
        [0, 0, 0, 0, 0, 0, 0, 0, 0, 0, 110] := by
      rw [orgCosts, hB]
      norm_num
    have hmean : meanQ (orgCosts 86400 recs11 1) = 10 := by
      rw [hcosts]
      norm_num [meanQ]
    have hvar : sampleVarQ (orgCosts 86400 recs11 1) = some 1100 := by
      rw [hcosts]
      norm_num [sampleVarQ, meanQ]
    have hex : exceedsThreshold (110 : ℚ)
        (meanQ (orgCosts 86400 recs11 1))
        (sampleVarQ (orgCosts 86400 recs11 1)) = true := by
      rw [hmean, hvar]
      norm_num [exceedsThreshold]
    have hbmem : (⟨3600 * 11, 1, 110, 1⟩ : HourBucket) ∈
        hourlyCosts 86400 recs11 := by
      rw [hB]
      simp
    have hflag := mem_flagged_intro 86400 recs11 ⟨3600 * 11, 1, 110, 1⟩
      hbmem hex
    have hlen : 0 < (flaggedBuckets 86400 recs11).length :=
      List.length_pos_of_mem hflag
    have hlen2 : 0 < (detectAnomalies 86400 recs11).length := by
      rw [detectAnomalies, List.length_map, length_sortBy]
      exact hlen
    exact List.length_pos.mp hlen2
